import Mathlib

/-!
Verification development for the pc-builder-site repository.

Part 1 embeds `src/server.py`: the dynamic Python values the handler
manipulates, the output-scraping helpers `try_run_workflow` and the
dispatcher `call_agent`, and the HTTP handler `ask_agent`.  The external
OpenAI client is opaque, so each embedded function takes the behaviour of
its external call (as an `Except` value, or as a `String → Except` map for
the two responder functions) as a parameter.

Part 2 models the budget/quality normalization core described in the
specification (RequestParser's budget patterns and BudgetNormalizer);
that code is not part of `src/`, so it is modelled from the spec.
-/

namespace PcSite

/-- A Python exception value, identified by its type name and its message
(`type(e).__name__` and `str(e)`). -/
structure Exc where
  name : String
  msg : String
deriving DecidableEq

/-- A dynamic Python value, covering the shapes `server.py` manipulates:
strings, `None`, booleans, integral numbers, lists, dicts with string keys
(JSON objects), and attribute-bearing SDK objects. -/
inductive PyVal where
  | vstr (s : String)
  | vnone
  | vbool (b : Bool)
  | vnum (n : Int)
  | vlist (xs : List PyVal)
  | vdict (fields : List (String × PyVal))
  | vobj (attrs : List (String × PyVal))

/-- The Python type name of a value, as it appears in error messages. -/
def pyTypeName : PyVal → String
  | .vstr _ => "str"
  | .vnone => "NoneType"
  | .vbool _ => "bool"
  | .vnum _ => "int"
  | .vlist _ => "list"
  | .vdict _ => "dict"
  | .vobj _ => "object"

/-- Python `str.strip()`: remove leading and trailing whitespace. -/
def pyStrip (s : String) : String :=
  String.mk (((s.data.dropWhile Char.isWhitespace).reverse.dropWhile Char.isWhitespace).reverse)

/-- Calling `.strip()` on a dynamic value: succeeds exactly on strings,
raises `AttributeError` on every other type. -/
def pyStripVal : PyVal → Except Exc String
  | .vstr s => .ok (pyStrip s)
  | v => .error ⟨"AttributeError",
      "\x27" ++ pyTypeName v ++ "\x27 object has no attribute \x27strip\x27"⟩

/-- Python truthiness of a dynamic value. -/
def pyTruthy : PyVal → Bool
  | .vstr s => s ≠ ""
  | .vnone => false
  | .vbool b => b
  | .vnum n => n ≠ 0
  | .vlist xs => !xs.isEmpty
  | .vdict fields => !fields.isEmpty
  | .vobj _ => true

/-- `getattr(v, name, None)`-style attribute lookup (`none` = attribute
absent).  Strings, numbers, lists and dicts carry none of the attribute
names `server.py` probes (`content`, `text`). -/
def pyGetAttr (v : PyVal) (attr : String) : Option PyVal :=
  match v with
  | .vobj attrs => attrs.lookup attr
  | _ => none

/-- Python iteration `for x in v`: lists yield their elements, strings
their characters, dicts their keys; other values raise `TypeError`. -/
def pyIter : PyVal → Except Exc (List PyVal)
  | .vlist xs => .ok xs
  | .vstr s => .ok (s.data.map fun c => .vstr (String.mk [c]))
  | .vdict fields => .ok (fields.map fun kv => .vstr kv.1)
  | v => .error ⟨"TypeError", "\x27" ++ pyTypeName v ++ "\x27 object is not iterable"⟩

/-- `"\n".join(chunks)`: raises `TypeError` on the first non-string item. -/
def pyJoinNl (chunks : List PyVal) : Except Exc String :=
  match chunks.mapM (fun c =>
    match c with
    | PyVal.vstr s => Except.ok s
    | v => Except.error (⟨"TypeError",
        "sequence item: expected str instance, " ++ pyTypeName v ++ " found"⟩ : Exc)) with
  | .ok ss => .ok (String.intercalate "\n" ss)
  | .error e => .error e

/-- The dict-style chunk extraction of `try_run_workflow` (lines 63-71 of
`server.py`): a step that is a dict contributes `c.get("text", "")` for each
`c` in `step["content"]` whose `"type"` is `"output_text"` or `"text"`. -/
def contentTextChunk (c : PyVal) : Option PyVal :=
  match c with
  | .vdict cd =>
    match cd.lookup "type" with
    | some (.vstr t) =>
      if t = "output_text" ∨ t = "text" then some ((cd.lookup "text").getD (.vstr "")) else none
    | _ => none
  | _ => none

/-- The object-style chunk extraction of `try_run_workflow` (lines 73-78):
`t = getattr(c, "text", None); if t: chunks.append(t)`. -/
def attrTextChunk (c : PyVal) : Option PyVal :=
  let t := (pyGetAttr c "text").getD .vnone
  if pyTruthy t then some t else none

/-- One iteration of `for step in run.output` (lines 61-78 of `server.py`):
dict steps use the `"content"` key, other steps the `content` attribute. -/
def stepChunks (st : PyVal) : Except Exc (List PyVal) :=
  match st with
  | .vdict d =>
    match d.lookup "content" with
    | some contentVal => do
      let cs ← pyIter contentVal
      pure (cs.filterMap contentTextChunk)
    | none => pure []
  | _ =>
    match pyGetAttr st "content" with
    | some contentVal => do
      let cs ← pyIter contentVal
      pure (cs.filterMap attrTextChunk)
    | none => pure []

/-- The body of the `try:` block at lines 59-82 of `server.py`: collect the
chunks of every step of `run.output`; if any were found, return the
stripped newline-join, otherwise fall through (`none`).  An `.error`
result models an exception inside the `try:` block. -/
def runScrape (outv : PyVal) : Except Exc (Option String) := do
  let steps ← pyIter outv
  let chunks ← steps.foldlM (fun acc st => do pure (acc ++ (← stepChunks st))) ([] : List PyVal)
  if chunks.isEmpty then
    pure none
  else do
    let joined ← pyJoinNl chunks
    pure (some (pyStrip joined))

/-- The run object returned by `client.workflows.runs.create`: an
`output_text` attribute (absent = `none`), an `output` attribute, and its
`str(run)` rendering. -/
structure RunObj where
  output_text : Option PyVal
  output : Option PyVal
  reprStr : String

/-- `try_run_workflow` (lines 37-85 of `server.py`), with the external
`client.workflows.runs.create` call's behaviour passed in as `createRun`.
`run.output_text.strip()` at line 55 is outside every `try:` block; only
the `run.output` scrape at lines 59-82 is wrapped in
`try: ... except Exception: pass`, after which the function returns
`str(run)`. -/
def try_run_workflow (createRun : Except Exc RunObj) : Except Exc String :=
  match createRun with
  | .error e => .error e
  | .ok run =>
    match run.output_text with
    | some v => pyStripVal v
    | none =>
      match run.output with
      | some outv =>
        match runScrape outv with
        | .ok (some s) => .ok s
        | .ok none => .ok run.reprStr
        | .error _ => .ok run.reprStr
      | none => .ok run.reprStr

/-- The f-string fallback answer of `call_agent` (line 163 of `server.py`):
`f"[ERROR running workflow] \x7btype(e).__name__\x7d: \x7be\x7d"`. -/
def errFallback (e : Exc) : String :=
  "[ERROR running workflow] " ++ e.name ++ ": " ++ e.msg

/-- `call_agent` (lines 150-164 of `server.py`), with the behaviours of
`try_run_workflow` and `fallback_direct_model` (each a map from the user
message to a result or a raised exception) passed in as parameters. -/
def call_agent (tryWf fallbackDirect : String → Except Exc String) (user_message : String) :
    Except Exc String :=
  match tryWf user_message with
  | .ok answer => .ok answer
  | .error e =>
    match fallbackDirect user_message with
    | .ok fallback_answer =>
      .ok (if fallback_answer = "" then errFallback e else fallback_answer)
    | .error e2 => .error e2

/-- An HTTP response: status code plus (flat, string-valued) JSON body. -/
structure HttpResponse where
  status : Nat
  body : List (String × String)
deriving DecidableEq

/-- The `POST /ask` handler `ask_agent` (lines 167-176 of `server.py`).
The parsed JSON request body is `body`; the behaviour of `call_agent` is
the `agent` parameter.  `hasattr(str, "trim")` is `False` for Python's
built-in `str`, so line 170 always takes the `.strip()` branch.  A
returned `.error` models an unhandled exception (a 500-class failure). -/
def ask_agent (agent : String → Except Exc String) (body : List (String × PyVal)) :
    Except Exc HttpResponse :=
  match pyStripVal ((body.lookup "message").getD (PyVal.vstr "")) with
  | .error e => .error e
  | .ok user_message =>
    if user_message = "" then
      .ok ⟨400, [("error", "no message provided")]⟩
    else
      match agent user_message with
      | .error e => .error e
      | .ok answer => .ok ⟨200, [("answer", answer)]⟩

/-!
Part 2: the budget/quality normalization core.  The repository ships only
`server.py`; the RequestParser/BudgetNormalizer logic the specification
describes lives outside `src/`, so it is modelled here from the spec's
words (decimal rendering with thousands separators, the monetary-pattern
scanner, the minimum-budget table, the bracket ladder and `normalize`).
-/

/-- The decimal digit character for `d` (`d < 10`; larger values clamp). -/
def digitChar : Nat → Char
  | 0 => '0'
  | 1 => '1'
  | 2 => '2'
  | 3 => '3'
  | 4 => '4'
  | 5 => '5'
  | 6 => '6'
  | 7 => '7'
  | 8 => '8'
  | _ => '9'

/-- The decimal digits of `n`, most significant first; `fuel` bounds the
recursion depth (any `fuel > n` is enough). -/
def natDigitsAux : Nat → Nat → List Char
  | 0, _ => []
  | fuel + 1, n =>
    if n < 10 then [digitChar n]
    else natDigitsAux fuel (n / 10) ++ [digitChar (n % 10)]

/-- The decimal digits of `n`, most significant first. -/
def natDigits (n : Nat) : List Char :=
  natDigitsAux (n + 1) n

/-- Read a digit list back as a natural number (most significant first). -/
def digitsToNat (cs : List Char) : Nat :=
  cs.foldl (fun a c => 10 * a + (c.toNat - 48)) 0

/-- Insert a comma after every three characters of a reversed digit list
(so every three digits counted from the right of the number). -/
def groupRev : List Char → List Char
  | [] => []
  | [a] => [a]
  | [a, b] => [a, b]
  | [a, b, c] => [a, b, c]
  | a :: b :: c :: rest => a :: b :: c :: ',' :: groupRev rest

/-- Modelled from the spec: render `n` in decimal with thousands-separator
commas ("comma-grouped"), as used in budget labels and the advisory note. -/
def commaString (n : Nat) : String :=
  String.mk (groupRev (natDigits n).reverse).reverse

/-- Modelled from the spec: thousands separators (commas) are stripped
before parsing a monetary pattern. -/
def stripCommas (s : String) : List Char :=
  s.data.filter (fun c => c != ',')

/-- Split a character list into its maximal digit prefix and the rest. -/
def readDigits : List Char → List Char × List Char
  | [] => ([], [])
  | c :: rest =>
    if c.isDigit then
      let p := readDigits rest
      (c :: p.1, p.2)
    else ([], c :: rest)

/-- Drop leading whitespace (the patterns are insensitive to extra
whitespace around `$`, separators and operators). -/
def skipSpaces : List Char → List Char
  | [] => []
  | c :: rest => if c.isWhitespace then skipSpaces rest else c :: rest

/-- Modelled from the spec: scan for the first match of the `$N+` / `N+`
pattern (a digit run whose next non-space character is `+`); the `$` is
optional so it is simply skipped as a non-digit. -/
def findPlus : List Char → Option Nat
  | [] => none
  | c :: rest =>
    if c.isDigit then
      let p := readDigits (c :: rest)
      match skipSpaces p.2 with
      | '+' :: _ => some (digitsToNat p.1)
      | _ => findPlus rest
    else findPlus rest

/-- Modelled from the spec: scan for the first match of the `$N–$M` /
`$N-M` pattern (digit run, optional spaces, en-dash or hyphen, optional
spaces, optional `$`, digit run). -/
def findRange : List Char → Option (Nat × Nat)
  | [] => none
  | c :: rest =>
    if c.isDigit then
      let p := readDigits (c :: rest)
      match skipSpaces p.2 with
      | d :: r2 =>
        if d = '–' ∨ d = '-' then
          let r3 :=
            match skipSpaces r2 with
            | '$' :: t => skipSpaces t
            | u => u
          let q := readDigits r3
          if q.1.isEmpty then findRange rest else some (digitsToNat p.1, digitsToNat q.1)
        else findRange rest
      | [] => findRange rest
    else findRange rest

/-- Modelled from the spec: scan for the first bare number `$N` / `N`. -/
def findBare : List Char → Option Nat
  | [] => none
  | c :: rest =>
    if c.isDigit then some (digitsToNat (readDigits (c :: rest)).1)
    else findBare rest

/-- A budget range: minimum and (possibly unbounded, `none`) maximum. -/
structure BudgetRange where
  min : Nat
  max : Option Nat
deriving DecidableEq

/-- Modelled from the spec: parse a budget label with the three monetary
patterns in priority order (`$N+`, then `$N–$M`, then bare `$N`), commas
stripped first; an unparseable label yields `(0, 0)`. -/
def parseBudget (s : String) : BudgetRange :=
  match findPlus (stripCommas s) with
  | some n => ⟨n, none⟩
  | none =>
    match findRange (stripCommas s) with
    | some nm => ⟨nm.1, some nm.2⟩
    | none =>
      match findBare (stripCommas s) with
      | some n => ⟨n, some n⟩
      | none => ⟨0, some 0⟩

/-- No monetary pattern occurs anywhere in the label. -/
def noMonetaryMatch (s : String) : Prop :=
  findPlus (stripCommas s) = none ∧ findRange (stripCommas s) = none ∧
    findBare (stripCommas s) = none

instance (s : String) : Decidable (noMonetaryMatch s) := by
  unfold noMonetaryMatch; infer_instance

/-- Modelled from the spec: the fixed enumerated set of 7 quality
settings. -/
inductive QualitySetting where
  | fhdLow
  | fhdMedium
  | fhdHigh
  | qhdHigh
  | qhdUltra
  | uhdHigh
  | uhdUltra
deriving DecidableEq

/-- The display label of each quality setting. -/
def settingLabel : QualitySetting → String
  | .fhdLow => "1080p Low"
  | .fhdMedium => "1080p Medium"
  | .fhdHigh => "1080p High"
  | .qhdHigh => "1440p High"
  | .qhdUltra => "1440p Ultra"
  | .uhdHigh => "4K High"
  | .uhdUltra => "4K Ultra"

/-- Modelled from the spec: the minimum-budget table, one entry per
quality setting. -/
def minimumBudgetTable : QualitySetting → Nat
  | .fhdLow => 500
  | .fhdMedium => 800
  | .fhdHigh => 1000
  | .qhdHigh => 1500
  | .qhdUltra => 1800
  | .uhdHigh => 2200
  | .uhdUltra => 3000

/-- Modelled from the spec: the fixed ascending five-bracket ladder. -/
def budgetLadder : List String :=
  ["$500–$1,000", "$1,000–$1,500", "$1,500–$2,000", "$2,000–$3,000", "$3,000+"]

/-- Modelled from the spec: the advisory note attached on adjustment. -/
def adjustNote (s : QualitySetting) : String :=
  "Budget auto-raised to meet \"" ++ settingLabel s ++ "\" (min ~$" ++
    commaString (minimumBudgetTable s) ++ ")."

/-- The result of normalization: final setting, final budget label, note. -/
structure NormalizationResult where
  setting : QualitySetting
  budgetLabel : String
  note : String
deriving DecidableEq

/-- Modelled from the spec: `normalize(setting, budgetLabel)`.  If the
parsed minimum already meets the table's required minimum the input is
returned unchanged with an empty note; otherwise the first ladder bracket
whose own minimum is at least the required minimum is selected (falling
back to the top bracket), with the advisory note. -/
def normalize (s : QualitySetting) (budgetLabel : String) : NormalizationResult :=
  if minimumBudgetTable s ≤ (parseBudget budgetLabel).min then
    ⟨s, budgetLabel, ""⟩
  else
    ⟨s,
      (budgetLadder.find? fun b =>
        decide (minimumBudgetTable s ≤ (parseBudget b).min)).getD "$3,000+",
      adjustNote s⟩

/-- The ladder bracket `normalize` selects on adjustment: the first whose
own minimum meets the required minimum (top bracket as fallback). -/
def chosenBracket (s : QualitySetting) : String :=
  (budgetLadder.find? fun b =>
    decide (minimumBudgetTable s ≤ (parseBudget b).min)).getD "$3,000+"

/-!
Theorems about the `server.py` embedding (claims C5-C10).
-/

/-- Helper: the literal f-string fallback answer is never empty. -/
theorem errFallback_length_pos (e : Exc) : 0 < (errFallback e).length := by
  unfold errFallback
  rw [String.length_append, String.length_append, String.length_append]
  have hpos : 0 < ("[ERROR running workflow] " : String).length := by decide
  omega

/-- Helper: the literal f-string fallback answer is not `""`. -/
theorem errFallback_ne_empty (e : Exc) : errFallback e ≠ "" := by
  intro h
  have hp := errFallback_length_pos e
  rw [h] at hp
  exact absurd hp (by decide)

/-- C5 (counterexample): on a body with no `message` key, `ask_agent` does
not return the body `\x7b"error": "missing \x27message\x27"\x7d` the claim
states; the actual error text is `"no message provided"`. -/
theorem ask_agent_error_text_differs :
    ask_agent (fun _ => Except.ok "ans") [] ≠
      Except.ok ⟨400, [("error", "missing \x27message\x27")]⟩ := by
  intro h
  have h1 : ask_agent (fun _ => Except.ok "ans") [] =
      Except.ok (⟨400, [("error", "no message provided")]⟩ : HttpResponse) := rfl
  rw [h1] at h
  exact absurd (Except.ok.inj h) (by decide)

/-- C5 (amended): for every request body whose `message` is absent, empty
or all-whitespace, `ask_agent` returns status 400 with JSON error body
`\x7b"error": "no message provided"\x7d`, and this holds for every agent
behaviour, so `call_agent` is never invoked. -/
theorem ask_agent_blank_message_400 (agent : String → Except Exc String)
    (body : List (String × PyVal))
    (h : body.lookup "message" = none ∨
      ∃ s, body.lookup "message" = some (PyVal.vstr s) ∧ pyStrip s = "") :
    ask_agent agent body = Except.ok ⟨400, [("error", "no message provided")]⟩ := by
  unfold ask_agent
  rcases h with h | ⟨s, h, hs⟩
  · rw [h]
    rfl
  · rw [h]
    simp [pyStripVal, hs]

/-- C5 (witness): a concrete all-whitespace message yields the 400
response. -/
theorem ask_agent_blank_message_400_witness :
    ask_agent (fun _ => Except.ok "pc answer") [("message", PyVal.vstr "   ")] =
      Except.ok ⟨400, [("error", "no message provided")]⟩ :=
  ask_agent_blank_message_400 _ _ (Or.inr ⟨"   ", rfl, rfl⟩)

/-- C6 (counterexample): with a non-empty user message, when the workflow
call returns normally with empty output, `call_agent` returns the empty
string, not a non-empty answer. -/
theorem call_agent_empty_primary_answer :
    call_agent (fun _ => Except.ok "") (fun _ => Except.ok "fallback text") "build me a pc" =
      Except.ok "" ∧ "build me a pc" ≠ "" :=
  ⟨rfl, by decide⟩

/-- C6 (amended): when `try_run_workflow` raises and `fallback_direct_model`
returns normally, `call_agent` returns a non-empty answer (the fallback
answer when non-empty, otherwise the literal error-description string);
when `try_run_workflow` returns normally its output — possibly empty — is
returned unchanged. -/
theorem call_agent_error_recovery_nonempty
    (tryWf fallbackDirect : String → Except Exc String) (m : String) (e : Exc)
    (fbAnswer : String) (h1 : tryWf m = Except.error e)
    (h2 : fallbackDirect m = Except.ok fbAnswer) :
    ∃ a, call_agent tryWf fallbackDirect m = Except.ok a ∧ a ≠ "" := by
  simp only [call_agent, h1, h2]
  by_cases hf : fbAnswer = ""
  · exact ⟨errFallback e, by rw [if_pos hf], errFallback_ne_empty e⟩
  · exact ⟨fbAnswer, by rw [if_neg hf], hf⟩

/-- C6 (witness): a concrete failing workflow and empty-output fallback
still produce a non-empty answer. -/
theorem call_agent_error_recovery_nonempty_witness :
    ∃ a, call_agent (fun _ => Except.error ⟨"AttributeError", "no workflows"⟩)
      (fun _ => Except.ok "") "build me a pc" = Except.ok a ∧ a ≠ "" :=
  call_agent_error_recovery_nonempty _ _ _ _ _ rfl rfl

/-- C7: whenever `try_run_workflow` returns normally, `call_agent` returns
its result unchanged, for every possible `fallback_direct_model` behaviour
(so the fallback is never consulted). -/
theorem call_agent_workflow_first (tryWf fallbackDirect : String → Except Exc String)
    (m answer : String) (h : tryWf m = Except.ok answer) :
    call_agent tryWf fallbackDirect m = Except.ok answer := by
  unfold call_agent
  rw [h]

/-- C7 (witness): concrete instance with an erroring fallback that is
never reached. -/
theorem call_agent_workflow_first_witness :
    call_agent (fun _ => Except.ok "workflow answer")
      (fun _ => Except.error ⟨"RuntimeError", "down"⟩) "build me a pc" =
      Except.ok "workflow answer" :=
  call_agent_workflow_first _ _ _ _ rfl

/-- C8: if `try_run_workflow` raises and `fallback_direct_model` also
raises, `call_agent` propagates the fallback exception instead of
returning an answer string. -/
theorem call_agent_propagates_fallback_error
    (tryWf fallbackDirect : String → Except Exc String) (m : String) (e e2 : Exc)
    (h1 : tryWf m = Except.error e) (h2 : fallbackDirect m = Except.error e2) :
    call_agent tryWf fallbackDirect m = Except.error e2 := by
  unfold call_agent
  rw [h1, h2]

/-- C8 (witness): concrete instance where both paths raise. -/
theorem call_agent_propagates_fallback_error_witness :
    call_agent (fun _ => Except.error ⟨"AttributeError", "no workflows"⟩)
      (fun _ => Except.error ⟨"APIError", "unreachable"⟩) "build me a pc" =
      Except.error ⟨"APIError", "unreachable"⟩ :=
  call_agent_propagates_fallback_error _ _ _ _ _ rfl rfl

/-- C9 (counterexample): once `create` has returned, `try_run_workflow`
can still raise: line 55 calls `.strip()` on `run.output_text` outside
every `try:` block, so a run whose `output_text` attribute holds `None`
raises `AttributeError`. -/
theorem try_run_workflow_output_text_raises :
    try_run_workflow (Except.ok ⟨some PyVal.vnone, none, "run repr"⟩) =
      Except.error ⟨"AttributeError",
        "\x27NoneType\x27 object has no attribute \x27strip\x27"⟩ := rfl

/-- C9 (amended): once `create` returns, `try_run_workflow` cannot raise
unless the run carries a non-string `output_text` attribute: whenever
`output_text` is absent or a string, every exception thrown while
scraping `run.output` is swallowed and the function returns normally
(with the stripped text or with `str(run)`). -/
theorem try_run_workflow_safe_cases (run : RunObj)
    (h : run.output_text = none ∨ ∃ s, run.output_text = some (PyVal.vstr s)) :
    ∃ out, try_run_workflow (Except.ok run) = Except.ok out := by
  obtain ⟨ot, o, r⟩ := run
  rcases h with h | ⟨s, h⟩
  · have h' : ot = none := h
    subst h'
    cases o with
    | none => exact ⟨r, rfl⟩
    | some outv =>
      cases hs : runScrape outv with
      | error e => exact ⟨r, by simp [try_run_workflow, hs]⟩
      | ok oo =>
        cases oo with
        | none => exact ⟨r, by simp [try_run_workflow, hs]⟩
        | some str => exact ⟨str, by simp [try_run_workflow, hs]⟩
  · have h' : ot = some (PyVal.vstr s) := h
    subst h'
    exact ⟨pyStrip s, rfl⟩

/-- C9 (witness): a run with neither attribute returns `str(run)`. -/
theorem try_run_workflow_safe_cases_witness :
    ∃ out, try_run_workflow (Except.ok ⟨none, none, "run repr"⟩) = Except.ok out :=
  try_run_workflow_safe_cases ⟨none, none, "run repr"⟩ (Or.inl rfl)

/-- C10: a request body whose `message` key holds a non-string JSON value
makes `ask_agent` raise an unhandled `AttributeError` (`.strip()` on a
non-string), a 500-class failure, rather than returning the 400
missing-message response. -/
theorem ask_agent_nonstring_message_raises (agent : String → Except Exc String)
    (body : List (String × PyVal)) (v : PyVal)
    (hv : body.lookup "message" = some v) (hns : ∀ s, v ≠ PyVal.vstr s) :
    ask_agent agent body = Except.error ⟨"AttributeError",
      "\x27" ++ pyTypeName v ++ "\x27 object has no attribute \x27strip\x27"⟩ := by
  unfold ask_agent
  rw [hv]
  cases v with
  | vstr s => exact absurd rfl (hns s)
  | vnone => rfl
  | vbool b => rfl
  | vnum n => rfl
  | vlist xs => rfl
  | vdict fields => rfl
  | vobj attrs => rfl

/-- C10 (witness): `message` bound to the number 5 raises
`AttributeError`. -/
theorem ask_agent_nonstring_message_raises_witness :
    ask_agent (fun _ => Except.ok "pc answer") [("message", PyVal.vnum 5)] =
      Except.error ⟨"AttributeError",
        "\x27int\x27 object has no attribute \x27strip\x27"⟩ :=
  ask_agent_nonstring_message_raises _ _ (PyVal.vnum 5) rfl (fun _ h => PyVal.noConfusion h)

/-!
Theorems about the modelled budget core (claims C1-C4): first the decimal
rendering/parsing round trip, then the pattern scanner, then `normalize`.
-/

/-- Digit characters are digits. -/
theorem digitChar_isDigit (d : Nat) (h : d < 10) : (digitChar d).isDigit = true := by
  interval_cases d <;> decide

/-- The code of a digit character recovers the digit. -/
theorem digitChar_toNat (d : Nat) (h : d < 10) : (digitChar d).toNat = 48 + d := by
  interval_cases d <;> decide

/-- A digit character is not a comma. -/
theorem isDigit_ne_comma (c : Char) (h : c.isDigit = true) : (c != ',') = true := by
  cases hbe : c == ','
  · simp [bne, hbe]
  · rw [eq_of_beq hbe] at h
    exact absurd h (by decide)

/-- Every character of `natDigitsAux fuel n` is a digit (given fuel). -/
theorem natDigitsAux_all_digits : ∀ fuel n : Nat, n < fuel →
    ∀ c ∈ natDigitsAux fuel n, c.isDigit = true := by
  intro fuel
  induction fuel with
  | zero => intro n h; omega
  | succ fuel ih =>
    intro n h c hc
    unfold natDigitsAux at hc
    split at hc
    next hn =>
      rw [List.mem_singleton] at hc
      subst hc
      exact digitChar_isDigit n hn
    next hn =>
      rcases List.mem_append.mp hc with h1 | h2
      · have hd : n / 10 < n := Nat.div_lt_self (by omega) (by omega)
        exact ih (n / 10) (by omega) c h1
      · rw [List.mem_singleton] at h2
        subst h2
        exact digitChar_isDigit _ (Nat.mod_lt _ (by omega))

/-- Every character of `natDigits n` is a digit. -/
theorem natDigits_all_digits (n : Nat) : ∀ c ∈ natDigits n, c.isDigit = true :=
  natDigitsAux_all_digits (n + 1) n (by omega)

/-- `natDigits` never produces the empty list. -/
theorem natDigits_ne_nil (n : Nat) : natDigits n ≠ [] := by
  unfold natDigits natDigitsAux
  split
  · simp
  · simp

/-- Appending one digit multiplies the read-back value by ten. -/
theorem digitsToNat_append_digit (cs : List Char) (c : Char) :
    digitsToNat (cs ++ [c]) = 10 * digitsToNat cs + (c.toNat - 48) := by
  unfold digitsToNat
  rw [List.foldl_append]
  rfl

/-- Reading the digits of `natDigitsAux fuel n` back yields `n`. -/
theorem digitsToNat_natDigitsAux : ∀ fuel n : Nat, n < fuel →
    digitsToNat (natDigitsAux fuel n) = n := by
  intro fuel
  induction fuel with
  | zero => intro n h; omega
  | succ fuel ih =>
    intro n h
    unfold natDigitsAux
    split
    next hn =>
      show digitsToNat [digitChar n] = n
      unfold digitsToNat
      show 10 * 0 + ((digitChar n).toNat - 48) = n
      rw [digitChar_toNat n hn]
      omega
    next hn =>
      have hd : n / 10 < n := Nat.div_lt_self (by omega) (by omega)
      rw [digitsToNat_append_digit, ih (n / 10) (by omega),
        digitChar_toNat _ (Nat.mod_lt _ (by omega))]
      omega

/-- Reading the decimal digits of `n` back yields `n`. -/
theorem digitsToNat_natDigits (n : Nat) : digitsToNat (natDigits n) = n :=
  digitsToNat_natDigitsAux (n + 1) n (by omega)

/-- Filtering the commas out of a comma-grouped list recovers the list,
provided it contained no commas itself. -/
theorem filter_groupRev : ∀ l : List Char, (∀ c ∈ l, (c != ',') = true) →
    (groupRev l).filter (fun c => c != ',') = l
  | [], _ => rfl
  | [a], h => by
    simp [groupRev, List.filter_cons, h a (by simp)]
  | [a, b], h => by
    simp [groupRev, List.filter_cons, h a (by simp), h b (by simp)]
  | [a, b, c], h => by
    simp [groupRev, List.filter_cons, h a (by simp), h b (by simp), h c (by simp)]
  | a :: b :: c :: d :: rest, h => by
    have ih := filter_groupRev (d :: rest)
      (fun x hx => h x (by simp [List.mem_cons] at hx ⊢; tauto))
    show (a :: b :: c :: ',' :: groupRev (d :: rest)).filter (fun x => x != ',') =
      a :: b :: c :: d :: rest
    simp [List.filter_cons, h a (by simp), h b (by simp), h c (by simp), ih,
      (by decide : ((',' : Char) != ',') = false)]

/-- Stripping commas undoes the comma grouping of `commaString`. -/
theorem stripCommas_commaString (n : Nat) : stripCommas (commaString n) = natDigits n := by
  show ((groupRev (natDigits n).reverse).reverse).filter (fun c => c != ',') = natDigits n
  rw [List.filter_reverse, filter_groupRev (natDigits n).reverse
    (fun c hc => isDigit_ne_comma c (natDigits_all_digits n c (List.mem_reverse.mp hc))),
    List.reverse_reverse]

/-- `readDigits` splits a digit run followed by a non-digit. -/
theorem readDigits_append (ds rest : List Char) (hds : ∀ c ∈ ds, c.isDigit = true)
    (hrest : ∀ c, rest.head? = some c → c.isDigit = false) :
    readDigits (ds ++ rest) = (ds, rest) := by
  induction ds with
  | nil =>
    cases rest with
    | nil => rfl
    | cons c r =>
      have hc := hrest c rfl
      simp [readDigits, hc]
  | cons c t ih =>
    have hc := hds c (by simp)
    have ih' := ih (fun x hx => hds x (by simp [hx]))
    simp [readDigits, hc, ih']

/-- Unfolding lemma for `findPlus` on a cons cell. -/
theorem findPlus_cons (c : Char) (rest : List Char) :
    findPlus (c :: rest) =
      if c.isDigit then
        match skipSpaces (readDigits (c :: rest)).2 with
        | '+' :: _ => some (digitsToNat (readDigits (c :: rest)).1)
        | _ => findPlus rest
      else findPlus rest := rfl

/-- `findPlus` skips a leading non-digit. -/
theorem findPlus_nondigit (c : Char) (hc : c.isDigit = false) (l : List Char) :
    findPlus (c :: l) = findPlus l := by
  rw [findPlus_cons, hc]
  simp

/-- `findPlus` recognizes a digit run directly followed by `+`. -/
theorem findPlus_digits (n : Nat) : findPlus (natDigits n ++ ['+']) = some n := by
  obtain ⟨c, t, hct⟩ : ∃ c t, natDigits n = c :: t := by
    cases h : natDigits n with
    | nil => exact absurd h (natDigits_ne_nil n)
    | cons c t => exact ⟨c, t, rfl⟩
  have hds : ∀ x ∈ c :: t, x.isDigit = true := by
    rw [← hct]
    exact natDigits_all_digits n
  have hc : c.isDigit = true := hds c (by simp)
  have hrd : readDigits (c :: (t ++ ['+'])) = (c :: t, ['+']) := by
    have h1 := readDigits_append (c :: t) ['+'] hds
      (by intro x hx; simp at hx; subst hx; decide)
    simpa [List.cons_append] using h1
  have hsp : skipSpaces ['+'] = ['+'] := by decide
  rw [hct, List.cons_append, findPlus_cons, hrd]
  simp [hc, hsp]
  rw [← hct]
  exact digitsToNat_natDigits n

/-- Stripping commas distributes over string append. -/
theorem stripCommas_append (s t : String) :
    stripCommas (s ++ t) = stripCommas s ++ stripCommas t := by
  obtain ⟨a⟩ := s
  obtain ⟨b⟩ := t
  show (a ++ b).filter (fun c => c != ',') =
    a.filter (fun c => c != ',') ++ b.filter (fun c => c != ',')
  exact List.filter_append a b

/-- The comma-stripped characters of the label `$N+`. -/
theorem stripCommas_dollar_plus (n : Nat) :
    stripCommas ("$" ++ commaString n ++ "+") = '$' :: (natDigits n ++ ['+']) := by
  rw [stripCommas_append, stripCommas_append, stripCommas_commaString]
  rfl

/-- The comma-stripped characters of the label `N+`. -/
theorem stripCommas_bare_plus (n : Nat) :
    stripCommas (commaString n ++ "+") = natDigits n ++ ['+'] := by
  rw [stripCommas_append, stripCommas_commaString]
  rfl

/-- C4: every budget label of the literal shape `$N+` (or `N+`), with `N`
rendered with thousands-separator commas, parses to the open-ended range
`(N, ∞)` (the commas being stripped before parsing). -/
theorem parseBudget_plus_spec (n : Nat) :
    parseBudget ("$" ++ commaString n ++ "+") = ⟨n, none⟩ ∧
    parseBudget (commaString n ++ "+") = ⟨n, none⟩ := by
  constructor
  · have h1 : findPlus (stripCommas ("$" ++ commaString n ++ "+")) = some n := by
      rw [stripCommas_dollar_plus, findPlus_nondigit '$' (by decide)]
      exact findPlus_digits n
    unfold parseBudget
    rw [h1]
  · have h1 : findPlus (stripCommas (commaString n ++ "+")) = some n := by
      rw [stripCommas_bare_plus]
      exact findPlus_digits n
    unfold parseBudget
    rw [h1]

/-- Helper: when the parsed minimum meets the required minimum, `normalize`
returns its input unchanged with an empty note. -/
theorem normalize_high (s : QualitySetting) (label : String)
    (h : minimumBudgetTable s ≤ (parseBudget label).min) :
    normalize s label = ⟨s, label, ""⟩ := by
  unfold normalize
  rw [if_pos h]

/-- Helper: when the parsed minimum is below the required minimum,
`normalize` returns the first ladder bracket whose own minimum meets the
requirement, together with the advisory note. -/
theorem normalize_low_spec (s : QualitySetting) (label : String)
    (h : (parseBudget label).min < minimumBudgetTable s) :
    ∃ i, ∃ hi : i < budgetLadder.length,
      normalize s label = ⟨s, budgetLadder.get ⟨i, hi⟩, adjustNote s⟩ ∧
      minimumBudgetTable s ≤ (parseBudget (budgetLadder.get ⟨i, hi⟩)).min ∧
      ∀ j, ∀ hj : j < budgetLadder.length, j < i →
        (parseBudget (budgetLadder.get ⟨j, hj⟩)).min < minimumBudgetTable s := by
  have h' : ¬ minimumBudgetTable s ≤ (parseBudget label).min := by omega
  unfold normalize
  rw [if_neg h']
  cases s
  case fhdLow => exact ⟨0, by decide, by decide, by decide, by decide⟩
  case fhdMedium => exact ⟨1, by decide, by decide, by decide, by decide⟩
  case fhdHigh => exact ⟨1, by decide, by decide, by decide, by decide⟩
  case qhdHigh => exact ⟨2, by decide, by decide, by decide, by decide⟩
  case qhdUltra => exact ⟨3, by decide, by decide, by decide, by decide⟩
  case uhdHigh => exact ⟨4, by decide, by decide, by decide, by decide⟩
  case uhdUltra => exact ⟨4, by decide, by decide, by decide, by decide⟩

/-- C1: for every quality setting and every budget label, if the label
parses to a minimum meeting the table entry, `normalize` returns the input
unchanged with an empty note; otherwise it returns the first (smallest)
ladder bracket whose own minimum meets the table entry, with the advisory
note. -/
theorem normalize_characterization (s : QualitySetting) (label : String) :
    (minimumBudgetTable s ≤ (parseBudget label).min →
      normalize s label = ⟨s, label, ""⟩) ∧
    ((parseBudget label).min < minimumBudgetTable s →
      ∃ i, ∃ hi : i < budgetLadder.length,
        normalize s label = ⟨s, budgetLadder.get ⟨i, hi⟩, adjustNote s⟩ ∧
        minimumBudgetTable s ≤ (parseBudget (budgetLadder.get ⟨i, hi⟩)).min ∧
        ∀ j, ∀ hj : j < budgetLadder.length, j < i →
          (parseBudget (budgetLadder.get ⟨j, hj⟩)).min < minimumBudgetTable s) :=
  ⟨normalize_high s label, normalize_low_spec s label⟩

/-- C1 (witness): a sufficient concrete budget is returned unchanged with
an empty note, and an insufficient one is raised to a qualifying bracket. -/
theorem normalize_characterization_witness :
    normalize QualitySetting.fhdLow "$2,000–$3,000" =
      ⟨QualitySetting.fhdLow, "$2,000–$3,000", ""⟩ ∧
    ∃ i, ∃ hi : i < budgetLadder.length,
      normalize QualitySetting.uhdUltra "$1,000–$1,500" =
        ⟨QualitySetting.uhdUltra, budgetLadder.get ⟨i, hi⟩,
          adjustNote QualitySetting.uhdUltra⟩ ∧
      minimumBudgetTable QualitySetting.uhdUltra ≤
        (parseBudget (budgetLadder.get ⟨i, hi⟩)).min ∧
      ∀ j, ∀ hj : j < budgetLadder.length, j < i →
        (parseBudget (budgetLadder.get ⟨j, hj⟩)).min <
          minimumBudgetTable QualitySetting.uhdUltra :=
  ⟨(normalize_characterization QualitySetting.fhdLow "$2,000–$3,000").1 (by decide),
   (normalize_characterization QualitySetting.uhdUltra "$1,000–$1,500").2 (by decide)⟩

/-- Helper: the advisory note is never the empty string. -/
theorem adjustNote_ne_empty (s : QualitySetting) : adjustNote s ≠ "" := by
  intro h
  have hlen := congrArg String.length h
  unfold adjustNote at hlen
  simp only [String.length_append] at hlen
  have hpos : 0 < ("Budget auto-raised to meet \"" : String).length := by decide
  have h0 : ("" : String).length = 0 := rfl
  omega

/-- C2: `normalize` is total; a label matching none of the monetary
patterns parses to `(0, 0)`, every required minimum is positive, so the
label is adjusted upward (non-empty note) to the smallest qualifying
bracket of the ladder rather than producing an error. -/
theorem normalize_unparseable_adjusts (s : QualitySetting) (label : String)
    (h : noMonetaryMatch label) :
    parseBudget label = ⟨0, some 0⟩ ∧
    0 < minimumBudgetTable s ∧
    (normalize s label).note ≠ "" ∧
    ∃ i, ∃ hi : i < budgetLadder.length,
      (normalize s label).budgetLabel = budgetLadder.get ⟨i, hi⟩ ∧
      minimumBudgetTable s ≤ (parseBudget (budgetLadder.get ⟨i, hi⟩)).min ∧
      ∀ j, ∀ hj : j < budgetLadder.length, j < i →
        (parseBudget (budgetLadder.get ⟨j, hj⟩)).min < minimumBudgetTable s := by
  obtain ⟨h1, h2, h3⟩ := h
  have hp : parseBudget label = ⟨0, some 0⟩ := by
    unfold parseBudget
    rw [h1, h2, h3]
  have hpos : 0 < minimumBudgetTable s := by cases s <;> decide
  have hlt : (parseBudget label).min < minimumBudgetTable s := by
    rw [hp]
    exact hpos
  obtain ⟨i, hi, heq, hge, hmin⟩ := normalize_low_spec s label hlt
  refine ⟨hp, hpos, ?_, i, hi, ?_, hge, hmin⟩
  · rw [heq]
    show adjustNote s ≠ ""
    exact adjustNote_ne_empty s
  · rw [heq]

/-- C2 (witness): a concrete unparseable label for a concrete setting. -/
theorem normalize_unparseable_adjusts_witness :
    parseBudget "cheap but good" = ⟨0, some 0⟩ ∧
    0 < minimumBudgetTable QualitySetting.fhdHigh ∧
    (normalize QualitySetting.fhdHigh "cheap but good").note ≠ "" ∧
    ∃ i, ∃ hi : i < budgetLadder.length,
      (normalize QualitySetting.fhdHigh "cheap but good").budgetLabel =
        budgetLadder.get ⟨i, hi⟩ ∧
      minimumBudgetTable QualitySetting.fhdHigh ≤
        (parseBudget (budgetLadder.get ⟨i, hi⟩)).min ∧
      ∀ j, ∀ hj : j < budgetLadder.length, j < i →
        (parseBudget (budgetLadder.get ⟨j, hj⟩)).min <
          minimumBudgetTable QualitySetting.fhdHigh :=
  normalize_unparseable_adjusts QualitySetting.fhdHigh "cheap but good" (by decide)

/-- C3 (counterexample): applying `normalize` to its own output does not
yield the same `NormalizationResult`: after an adjustment the first result
carries the advisory note while the second application returns an empty
note. -/
theorem normalize_not_fully_idempotent :
    normalize QualitySetting.uhdUltra
        ((normalize QualitySetting.uhdUltra "$1,000–$1,500").budgetLabel) ≠
      normalize QualitySetting.uhdUltra "$1,000–$1,500" := by decide

/-- C3 (amended): the setting and budget-label components are idempotent:
re-normalizing the returned budget label yields the same setting and the
same budget label, with an empty note (the second application needs no
adjustment). -/
theorem normalize_budget_idempotent (s : QualitySetting) (label : String) :
    normalize s ((normalize s label).budgetLabel) =
      ⟨s, (normalize s label).budgetLabel, ""⟩ := by
  by_cases h : minimumBudgetTable s ≤ (parseBudget label).min
  · have h1 : normalize s label = ⟨s, label, ""⟩ := normalize_high s label h
    rw [h1]
    exact normalize_high s label h
  · have h1 : normalize s label = ⟨s, chosenBracket s, adjustNote s⟩ := by
      unfold normalize chosenBracket
      rw [if_neg h]
    rw [h1]
    show normalize s (chosenBracket s) = ⟨s, chosenBracket s, ""⟩
    cases s <;> decide

end PcSite
